import Mathlib

/-!
Shallow embedding of the http/httpserver crates: request parsing
(httprequest.rs), response construction and serialization
(httpresponse.rs), the request handlers (handlers.rs) and the routing
decision (router.rs).  Strings are modelled through their character
lists; every place the Rust code can panic (an unchecked index or an
unwrap) is modelled by an Option result, with none standing for the
panic.  File-system and JSON loading are external collaborators and are
passed in as oracle arguments.
-/

/-- Splits a character list at every character satisfying p, keeping
empty pieces; models Rust str::split with a single-character pattern. -/
def splitOnP (p : Char → Bool) : List Char → List (List Char)
  | [] => [[]]
  | c :: cs =>
    if p c then [] :: splitOnP p cs
    else
      match splitOnP p cs with
      | [] => [[c]]
      | h :: t => (c :: h) :: t

/-- Rust str::split with a one-character pattern such as ":" or "/". -/
def splitOnChar (sep : Char) (cs : List Char) : List (List Char) :=
  splitOnP (fun c => c == sep) cs

/-- Rust char::is_whitespace: the Unicode White_Space code points. -/
def isRustWhitespace (c : Char) : Bool :=
  decide (c.toNat ∈ ([0x09, 0x0A, 0x0B, 0x0C, 0x0D, 0x20, 0x85, 0xA0, 0x1680,
    0x2000, 0x2001, 0x2002, 0x2003, 0x2004, 0x2005, 0x2006, 0x2007, 0x2008,
    0x2009, 0x200A, 0x2028, 0x2029, 0x202F, 0x205F, 0x3000] : List Nat))

/-- Rust str::split_whitespace: whitespace-separated tokens, with empty
pieces dropped. -/
def splitWsL (cs : List Char) : List (List Char) :=
  (splitOnP isRustWhitespace cs).filter (fun l => !l.isEmpty)

/-- Removes one trailing carriage return (the CR of a CRLF ending). -/
def stripCr (l : List Char) : List Char :=
  if l.getLast? = some '\r' then l.dropLast else l

/-- Rust str::lines applied to the fragments obtained by splitting at
the newline character: every fragment except the last was
newline-terminated, so its trailing CR is stripped; a final empty
fragment (input ended with a newline) is dropped, and a final nonempty
fragment keeps a trailing CR. -/
def rustLinesCore : List (List Char) → List (List Char)
  | [] => []
  | [l] => if l.isEmpty then [] else [l]
  | l :: ls => stripCr l :: rustLinesCore ls

/-- Rust str::lines. -/
def rustLinesL (cs : List Char) : List (List Char) :=
  rustLinesCore (splitOnChar '\n' cs)

/-- True when the second list begins with the first one. -/
def startsWithSeq : List Char → List Char → Bool
  | [], _ => true
  | _ :: _, [] => false
  | p :: ps, c :: cs => p == c && startsWithSeq ps cs

/-- Rust str::contains with a string pattern: a contiguous occurrence of
pat somewhere in the list. -/
def containsSeq (pat : List Char) : List Char → Bool
  | [] => pat.isEmpty
  | c :: cs => startsWithSeq pat (c :: cs) || containsSeq pat cs

/-- httprequest.rs Method. -/
inductive Method
  | GET
  | POST
  | UNINITIALIZED
deriving DecidableEq

/-- httprequest.rs: From of str for Method. -/
def Method.fromStr (s : String) : Method :=
  if s = "GET" then .GET else if s = "POST" then .POST else .UNINITIALIZED

/-- httprequest.rs Version. -/
inductive Version
  | V1_1
  | V2_0
  | UNINITIALIZED
deriving DecidableEq

/-- httprequest.rs: From of str for Version; only the literal HTTP/1.1
maps to V1_1. -/
def Version.fromStr (s : String) : Version :=
  if s = "HTTP/1.1" then .V1_1 else .UNINITIALIZED

/-- httprequest.rs Resource. -/
inductive Resource
  | Path (p : String)
deriving DecidableEq

/-- httprequest.rs HttpRequest. -/
structure HttpRequest where
  method : Method
  version : Version
  resource : Resource
  headers : List (String × String)
  msg_body : String
deriving DecidableEq

/-- Lookup-faithful model of std HashMap insert: replaces the value
stored at an existing key, otherwise adds the binding. -/
def hmInsert (m : List (String × String)) (k v : String) : List (String × String) :=
  if m.any (fun q => q.1 == k) then
    m.map (fun q => if q.1 == k then (k, v) else q)
  else m ++ [(k, v)]

/-- Lookup in the header-map model. -/
def hmGet (m : List (String × String)) (k : String) : Option String :=
  (m.find? (fun q => q.1 == k)).map (fun q => q.2)

/-- httprequest.rs process_req_line: the three unchecked next().unwrap()
calls panic when the line has fewer than three whitespace-separated
tokens; none models that panic. -/
def process_req_lineL (l : List Char) : Option (Method × Resource × Version) :=
  match splitWsL l with
  | m :: r :: v :: _ =>
    some (Method.fromStr (String.mk m), Resource.Path (String.mk r),
      Version.fromStr (String.mk v))
  | _ => none

/-- httprequest.rs process_header_line on character lists: split at
every colon, the key is the first piece and the value the second piece
(empty when there is no colon at all). -/
def process_header_lineL (l : List Char) : List Char × List Char :=
  match splitOnChar ':' l with
  | [] => ([], [])
  | [k] => (k, [])
  | k :: v :: _ => (k, v)

/-- httprequest.rs process_header_line. -/
def process_header_line (s : String) : String × String :=
  (String.mk (process_header_lineL s.data).1, String.mk (process_header_lineL s.data).2)

/-- One iteration of the line loop inside From of String for
HttpRequest: request line when the line contains HTTP, header line when
it contains a colon, skipped when empty, body line otherwise. -/
def parseLine (st : HttpRequest) (l : List Char) : Option HttpRequest :=
  if containsSeq "HTTP".data l then
    match process_req_lineL l with
    | some (m, r, v) => some { st with method := m, version := v, resource := r }
    | none => none
  else if l.any (fun c => c == ':') then
    let kv := process_header_lineL l
    some { st with headers := hmInsert st.headers (String.mk kv.1) (String.mk kv.2) }
  else if l.isEmpty then
    some st
  else
    some { st with msg_body := String.mk l }

/-- The line loop of From of String for HttpRequest. -/
def parseLines (st : HttpRequest) : List (List Char) → Option HttpRequest
  | [] => some st
  | l :: ls =>
    match parseLine st l with
    | some st2 => parseLines st2 ls
    | none => none

/-- The initial values of the parser accumulators. -/
def initialRequest : HttpRequest :=
  { method := .UNINITIALIZED, version := .V1_1, resource := .Path "",
    headers := [], msg_body := "" }

/-- httprequest.rs: From of String for HttpRequest; none models the
unwrap panic inside process_req_line. -/
def HttpRequest.fromString (req : String) : Option HttpRequest :=
  parseLines initialRequest (rustLinesL req.data)

/-- A line classified as a body line by the parser: no HTTP substring,
no colon, nonempty. -/
def isBodyLineL (l : List Char) : Bool :=
  !containsSeq "HTTP".data l && !l.any (fun c => c == ':') && !l.isEmpty

/-- The token a parsed Method came from; re-derivation map used by the
parse round-trip claim. -/
def methodToString : Method → String
  | .GET => "GET"
  | .POST => "POST"
  | .UNINITIALIZED => "UNINITIALIZED"

/-- The token a parsed Version came from; re-derivation map used by the
parse round-trip claim. -/
def versionToString : Version → String
  | .V1_1 => "HTTP/1.1"
  | .V2_0 => "HTTP/2.0"
  | .UNINITIALIZED => "UNINITIALIZED"

/-- httpresponse.rs HttpResponse; header maps are modelled as
association lists. -/
structure HttpResponse where
  version : String
  status_code : String
  status_text : String
  headers : Option (List (String × String))
  body : Option String
deriving DecidableEq

/-- httpresponse.rs: Default for HttpResponse. -/
def HttpResponse.default : HttpResponse :=
  { version := "HTTP/1.1", status_code := "200", status_text := "OK",
    headers := none, body := none }

/-- httpresponse.rs HttpResponse::new. -/
def HttpResponse.new (status_code : String) (headers : Option (List (String × String)))
    (body : Option String) : HttpResponse :=
  let r0 := HttpResponse.default
  let r1 := if status_code ≠ "200" then { r0 with status_code := status_code } else r0
  let r2 := { r1 with headers :=
    match headers with
    | some h => some h
    | none => some [("Content-Type", "text/html")] }
  let r3 := { r2 with status_text :=
    if r2.status_code = "200" then "OK"
    else if r2.status_code = "400" then "Bad Request"
    else if r2.status_code = "404" then "Not Found"
    else if r2.status_code = "500" then "Internal Server Error"
    else "Not Found" }
  { r3 with body := body }

/-- httpresponse.rs HttpResponse::headers: each pair rendered as
key:value followed by CRLF, in the iteration order of the map (the
association-list order in this model). -/
def headersString (hs : List (String × String)) : String :=
  hs.foldl (fun acc q => acc ++ q.1 ++ ":" ++ q.2 ++ "\r\n") ""

/-- httpresponse.rs HttpResponse::body: the stored body or empty. -/
def HttpResponse.bodyStr (r : HttpResponse) : String :=
  match r.body with
  | some b => b
  | none => ""

/-- httpresponse.rs: From of HttpResponse for String; none models the
unwrap panic of HttpResponse::headers when the header map is absent. -/
def httpResponseToString (r : HttpResponse) : Option String :=
  match r.headers with
  | none => none
  | some hs =>
    some (r.version ++ " " ++ r.status_code ++ " " ++ r.status_text ++ "\r\n" ++
      headersString hs ++ "Content-Length: " ++
      toString (match r.body with | some b => b.utf8ByteSize | none => 0) ++
      "\r\n\r\n" ++ r.bodyStr)

/-- httpresponse.rs HttpResponse::send_response: the outcome of the
underlying stream write is an explicit argument; the code binds the
write result to an underscore and returns Ok of unit unconditionally. -/
def HttpResponse.send_response (r : HttpResponse) (writeOutcome : Except String Unit) :
    Except String Unit :=
  Except.ok ()

/-- Rust Path::extension applied to a single path segment (the segment
contains no slash): the text after the last dot of the name; none when
there is no dot, when the only dot is the leading one of a hidden file,
or for the special names dot and dot-dot (whose file_name is absent). -/
def rustExtension (s : String) : Option String :=
  if s = ".." then none
  else
    match splitOnChar '.' s.data with
    | [] => none
    | [_] => none
    | first :: rest =>
      if first.isEmpty && rest.length == 1 then none
      else (rest.getLast?).map String.mk

/-- handlers.rs StaticPageHandler::handle, with file loading passed in
as the external-collaborator oracle loadFile; none models the panics on
the unchecked route index 1 and on extension().unwrap(). -/
def StaticPageHandler.handle (loadFile : String → Option String)
    (request : HttpRequest) : Option HttpResponse :=
  match request.resource with
  | .Path p =>
    match (splitOnChar '/' p.data)[1]? with
    | none => none
    | some segL =>
      let seg := String.mk segL
      if seg = "" then some (HttpResponse.new "200" none (loadFile "index.html"))
      else if seg = "health" then some (HttpResponse.new "200" none (loadFile "health.html"))
      else
        match loadFile seg with
        | some contents =>
          match rustExtension seg with
          | none => none
          | some ext =>
            some (HttpResponse.new "200"
              (some [("Content-Type",
                if ext = "css" then "text/css"
                else if ext = "js" then "text/javascript"
                else "text/html")])
              (some contents))
        | none => some (HttpResponse.new "404" none (loadFile "404.html"))

/-- handlers.rs WebServiceHandler::handle, with the serialized order
list and file loading passed in as external-collaborator oracles; none
models the panics on the unchecked route indices 2 and 3 (the guard
checks the length against 2 but then reads index 3). -/
def WebServiceHandler.handle (ordersBody : String) (loadFile : String → Option String)
    (request : HttpRequest) : Option HttpResponse :=
  match request.resource with
  | .Path p =>
    match (splitOnChar '/' p.data)[2]? with
    | none => none
    | some seg2 =>
      if seg2 = "shipping".data then
        match (splitOnChar '/' p.data)[3]? with
        | none => none
        | some seg3 =>
          if seg3 = "orders".data then
            some (HttpResponse.new "200"
              (some [("Content-Type", "application/json;charset=UTF-8")])
              (some ordersBody))
          else some (HttpResponse.new "404" none (loadFile "404.html"))
      else some (HttpResponse.new "404" none (loadFile "404.html"))

/-- handlers.rs PageNotFoundHandler::handle. -/
def PageNotFoundHandler.handle (loadFile : String → Option String)
    (request : HttpRequest) : HttpResponse :=
  HttpResponse.new "404" none (loadFile "404.html")

/-- The handler selected by Router::route. -/
inductive HandlerChoice
  | webService
  | staticPage
  | pageNotFound
deriving DecidableEq

/-- router.rs Router::route dispatch decision; none models the
out-of-bounds panic on route index 1 for GET paths without a slash. -/
def Router.dispatch (request : HttpRequest) : Option HandlerChoice :=
  match request.method with
  | .GET =>
    match request.resource with
    | .Path p =>
      match (splitOnChar '/' p.data)[1]? with
      | none => none
      | some seg => if seg = "api".data then some .webService else some .staticPage
  | _ => some .pageNotFound

/-- The character list of a request line built from a method token and
a path token, with the fixed version token HTTP/1.1. -/
def reqLineChars (M P : String) : List Char :=
  M.data ++ ' ' :: (P.data ++ ' ' :: ['H', 'T', 'T', 'P', '/', '1', '.', '1'])

/-! ### Lemmas about the string utilities -/

theorem mk_data (s : String) : String.mk s.data = s := rfl

theorem data_append (a b : String) : (a ++ b).data = a.data ++ b.data := rfl

theorem colon_data : (":" : String).data = [':'] := rfl

theorem splitOnP_ne_nil (p : Char → Bool) (cs : List Char) : splitOnP p cs ≠ [] := by
  cases cs with
  | nil => simp [splitOnP]
  | cons c cs =>
    simp only [splitOnP]
    split
    · simp
    · split <;> simp

theorem splitOnP_append (p : Char → Bool) (k rest : List Char) (sep : Char)
    (hk : ∀ c ∈ k, p c = false) (hsep : p sep = true) :
    splitOnP p (k ++ sep :: rest) = k :: splitOnP p rest := by
  induction k with
  | nil => simp [splitOnP, hsep]
  | cons c k ih =>
    have hc : p c = false := hk c (by simp)
    have hk2 : ∀ x ∈ k, p x = false := fun x hx => hk x (by simp [hx])
    simp only [List.cons_append, splitOnP, hc, Bool.false_eq_true, if_false,
      List.append_eq, ih hk2]

theorem splitOnP_eq_single (p : Char → Bool) (k : List Char)
    (hk : ∀ c ∈ k, p c = false) : splitOnP p k = [k] := by
  induction k with
  | nil => simp [splitOnP]
  | cons c k ih =>
    have hc : p c = false := hk c (by simp)
    have hk2 : ∀ x ∈ k, p x = false := fun x hx => hk x (by simp [hx])
    simp only [splitOnP, hc, Bool.false_eq_true, if_false, ih hk2]

theorem containsSeq_append_of_right (pat l1 l2 : List Char)
    (h : containsSeq pat l2 = true) : containsSeq pat (l1 ++ l2) = true := by
  induction l1 with
  | nil => simpa using h
  | cons c l1 ih => simp [containsSeq, ih]

theorem stripCr_concat (l : List Char) : stripCr (l ++ ['\r']) = l := by
  simp [stripCr, List.getLast?_concat, List.dropLast_concat]

theorem rustLinesCore_cons (l : List Char) (ls : List (List Char)) (h : ls ≠ []) :
    rustLinesCore (l :: ls) = stripCr l :: rustLinesCore ls := by
  cases ls with
  | nil => exact absurd rfl h
  | cons a t => rfl

theorem rustLinesL_crlf (A rest : List Char) (hA : ∀ c ∈ A, (c == '\n') = false) :
    rustLinesL ((A ++ ['\r']) ++ '\n' :: rest) = A :: rustLinesL rest := by
  unfold rustLinesL splitOnChar
  have hA2 : ∀ c ∈ A ++ ['\r'], (c == '\n') = false := by
    intro c hc
    rcases List.mem_append.mp hc with h | h
    · exact hA c h
    · simp only [List.mem_singleton] at h
      subst h
      decide
  rw [splitOnP_append (fun c => c == '\n') (A ++ ['\r']) rest '\n' hA2 (by decide),
    rustLinesCore_cons _ _ (splitOnP_ne_nil _ _), stripCr_concat]

/-! ### Lemmas about the request parser -/

theorem parseLine_no_http (st : HttpRequest) (l : List Char)
    (hl : containsSeq "HTTP".data l = false) :
    ∃ st2, parseLine st l = some st2 ∧ st2.method = st.method ∧
      st2.version = st.version ∧ st2.resource = st.resource ∧
      st2.msg_body = (if isBodyLineL l then String.mk l else st.msg_body) := by
  by_cases h2 : l.any (fun c => c == ':') = true
  · refine ⟨{ st with headers := hmInsert st.headers (String.mk (process_header_lineL l).1) (String.mk (process_header_lineL l).2) },
      by simp [parseLine, hl, h2], rfl, rfl, rfl, ?_⟩
    simp [isBodyLineL, h2]
  · by_cases h3 : l.isEmpty = true
    · refine ⟨st, by simp [parseLine, hl, h2, h3], rfl, rfl, rfl, ?_⟩
      simp [isBodyLineL, h3]
    · refine ⟨{ st with msg_body := String.mk l },
        by simp [parseLine, hl, h2, h3], rfl, rfl, rfl, ?_⟩
      simp [isBodyLineL, hl, h2, h3]

theorem parseLines_no_http (ls : List (List Char)) :
    ∀ st : HttpRequest, (∀ l ∈ ls, containsSeq "HTTP".data l = false) →
    ∃ r, parseLines st ls = some r ∧ r.method = st.method ∧
      r.version = st.version ∧ r.resource = st.resource := by
  induction ls with
  | nil => exact fun st _ => ⟨st, rfl, rfl, rfl, rfl⟩
  | cons l ls ih =>
    intro st h
    obtain ⟨st2, hst2, hm, hv, hr, _⟩ :=
      parseLine_no_http st l (h l (by simp))
    obtain ⟨r, hr2, hm2, hv2, hr3⟩ := ih st2 (fun x hx => h x (by simp [hx]))
    refine ⟨r, ?_, ?_, ?_, ?_⟩
    · simp [parseLines, hst2, hr2]
    · rw [hm2, hm]
    · rw [hv2, hv]
    · rw [hr3, hr]

theorem parseLines_msg_body (ls : List (List Char)) :
    ∀ (st r : HttpRequest), parseLines st ls = some r →
    r.msg_body = (((ls.filter isBodyLineL).getLast?).map String.mk).getD st.msg_body := by
  induction ls with
  | nil =>
    intro st r h
    simp only [parseLines, Option.some.injEq] at h
    subst h
    simp
  | cons l ls ih =>
    intro st r h
    by_cases hH : containsSeq "HTTP".data l = true
    · have hb : isBodyLineL l = false := by simp [isBodyLineL, hH]
      rcases hp : process_req_lineL l with _ | ⟨⟨m, rr, v⟩⟩
      · simp [parseLines, parseLine, hH, hp] at h
      · have h2 : parseLines { st with method := m, version := v, resource := rr } ls = some r := by
          simpa [parseLines, parseLine, hH, hp] using h
        simpa [hb] using ih _ r h2
    · have hHf : containsSeq "HTTP".data l = false := by
        simpa using hH
      obtain ⟨st2, hst2, _, _, _, hmb⟩ := parseLine_no_http st l hHf
      have h2 : parseLines st2 ls = some r := by
        simpa [parseLines, hst2] using h
      by_cases hb : isBodyLineL l = true
      · rw [hb, if_pos rfl] at hmb
        have hr := ih st2 r h2
        rw [hr, hmb]
        simp only [List.filter_cons, hb, if_pos]
        rcases hfl : ls.filter isBodyLineL with _ | ⟨a, t⟩
        · simp
        · rcases hx : (a :: t).getLast? with _ | x
          · simp at hx
          · simp [List.getLast?_cons_cons, hx]
      · have hbf : isBodyLineL l = false := by simpa using hb
        rw [hbf] at hmb
        simp only [Bool.false_eq_true, if_false] at hmb
        have := ih st2 r h2
        rw [this, hmb]
        simp [List.filter_cons, hbf]

/-! ### Claim theorems -/

/-- Claim C1, counterexample: parsing the quoted raw request does NOT
store the value "localhost:3000" under the key "Host"; the stored value
is " localhost", because process_header_line splits at every colon and
keeps only the second piece, truncating the value at the second colon. -/
theorem c1_counterexample :
    (HttpRequest.fromString "GET /greeting HTTP/1.1\r\nHost: localhost:3000\r\n\r\nHello World!\r\n").map
        (fun r => hmGet r.headers "Host") = some (some " localhost") ∧
      (" localhost" : String) ≠ "localhost:3000" := by
  decide

/-- Claim C1, amended: parsing the raw text yields method GET, version
V1_1, resource Path /greeting, a headers map whose single entry is
Host with value " localhost" (leading space kept, truncated at the
second colon), and message body "Hello World!". -/
theorem c1_parse_greeting :
    HttpRequest.fromString "GET /greeting HTTP/1.1\r\nHost: localhost:3000\r\n\r\nHello World!\r\n" =
      some { method := .GET, version := .V1_1, resource := .Path "/greeting",
             headers := [("Host", " localhost")], msg_body := "Hello World!" } := by
  decide

/-- Claim C2, counterexample: for the header line Host colon space
localhost colon 3000, the stored value is " localhost", not the entire
remainder " localhost:3000" after the first colon. -/
theorem c2_counterexample :
    process_header_line "Host: localhost:3000" = ("Host", " localhost") ∧
      (" localhost" : String) ≠ " localhost:3000" := by
  decide

/-- Claim C2, amended: a header line is split at its first colon into a
key (everything before it) and a value; the value is only the text up
to the SECOND colon (the entire remainder when there is no second
colon), with leading whitespace preserved and no trimming; everything
from the second colon on is dropped. -/
theorem c2_header_value_truncated (k v : String)
    (hk : ∀ c ∈ k.data, (c == ':') = false)
    (hv : ∀ c ∈ v.data, (c == ':') = false) :
    process_header_line (k ++ ":" ++ v) = (k, v) ∧
      ∀ w : String, process_header_line (k ++ ":" ++ v ++ ":" ++ w) = (k, v) := by
  have hdata1 : (k ++ ":" ++ v).data = k.data ++ ':' :: v.data := by
    have h0 : (k ++ ":" ++ v).data = (k.data ++ ":".data) ++ v.data := rfl
    rw [h0, List.append_assoc, colon_data]
    rfl
  constructor
  · unfold process_header_line process_header_lineL splitOnChar
    rw [hdata1, splitOnP_append _ _ _ _ hk (by decide), splitOnP_eq_single _ _ hv]
  · intro w
    have hdata2 : (k ++ ":" ++ v ++ ":" ++ w).data = k.data ++ ':' :: (v.data ++ ':' :: w.data) := by
      have h0 : (k ++ ":" ++ v ++ ":" ++ w).data = (((k.data ++ ":".data) ++ v.data) ++ ":".data) ++ w.data := rfl
      rw [h0, colon_data, List.append_assoc, List.append_assoc, List.append_assoc]
      rfl
    unfold process_header_line process_header_lineL splitOnChar
    rw [hdata2, splitOnP_append _ _ _ _ hk (by decide),
      splitOnP_append _ _ _ _ hv (by decide)]

/-- Claim C2, witness: the amended splitting behavior at the concrete
header line of the repository's own test request. -/
theorem c2_header_value_truncated_witness :
    process_header_line ("Host" ++ ":" ++ " localhost" ++ ":" ++ "3000") = ("Host", " localhost") :=
  (c2_header_value_truncated "Host" " localhost" (by decide) (by decide)).2 "3000"

/-- Claim C3, counterexample: with the two body lines "first" and
"second" in this order, the parsed msg_body is "second" (the last body
line), not "first" as the claim states. -/
theorem c3_counterexample :
    HttpRequest.fromString "GET /x HTTP/1.1\r\n\r\nfirst\r\nsecond\r\n" =
      some { method := .GET, version := .V1_1, resource := .Path "/x",
             headers := [], msg_body := "second" } ∧
      ("second" : String) ≠ "first" := by
  decide

/-- Claim C3, amended: whenever parsing succeeds, msg_body is exactly
the LAST line that contains neither the substring HTTP nor a colon and
is nonempty (each body line overwrites the previous one), and the empty
string when there is no such line. -/
theorem c3_last_body_line (req : String) (r : HttpRequest)
    (h : HttpRequest.fromString req = some r) :
    r.msg_body =
      ((((rustLinesL req.data).filter isBodyLineL).getLast?).map String.mk).getD "" :=
  parseLines_msg_body _ initialRequest r h

/-- Claim C3, witness: the amended statement evaluated on a request
with two body lines. -/
theorem c3_last_body_line_witness :
    ({ method := .GET, version := .V1_1, resource := .Path "/x",
       headers := [], msg_body := "second" } : HttpRequest).msg_body =
      ((((rustLinesL ("GET /x HTTP/1.1\r\n\r\nfirst\r\nsecond\r\n" : String).data).filter
          isBodyLineL).getLast?).map String.mk).getD "" :=
  c3_last_body_line "GET /x HTTP/1.1\r\n\r\nfirst\r\nsecond\r\n" _ (by decide)

/-- Claim C5: WebServiceHandler::handle evaluated at its failing
inputs and at the matching path.  For the path /api/shipping the guard
checks the split length against 2 but then reads index 3, and for the
path /api it reads index 2 unchecked, so both panic (modelled by none)
instead of answering 404; the path /api/shipping/orders does produce
the 200 JSON response. -/
theorem c5_api_handler_eval :
    WebServiceHandler.handle "[]" (fun _ => none)
        { method := .GET, version := .V1_1, resource := .Path "/api/shipping",
          headers := [], msg_body := "" } = none ∧
      WebServiceHandler.handle "[]" (fun _ => none)
        { method := .GET, version := .V1_1, resource := .Path "/api",
          headers := [], msg_body := "" } = none ∧
      WebServiceHandler.handle "[]" (fun _ => none)
        { method := .GET, version := .V1_1, resource := .Path "/api/shipping/orders",
          headers := [], msg_body := "" } =
        some { version := "HTTP/1.1", status_code := "200", status_text := "OK",
               headers := some [("Content-Type", "application/json;charset=UTF-8")],
               body := some "[]" } := by
  refine ⟨by decide, by decide, by decide⟩

/-- Claim C7: send_response never surfaces a write error; even when the
underlying write fails, the code discards the outcome (binding it to an
underscore) and returns Ok of unit. -/
theorem c7_send_response_discards_error (r : HttpResponse) (e : String) :
    HttpResponse.send_response r (Except.error e) = Except.ok () ∧
      Except.error e ≠ (Except.ok () : Except String Unit) :=
  ⟨rfl, fun h => Except.noConfusion h⟩

/-- Claim C8: HttpResponse::new derives status_text from the
status_code argument by the fixed table (200 OK, 400 Bad Request,
404 Not Found, 500 Internal Server Error, anything else Not Found),
and when no headers are supplied the stored headers are exactly the
single Content-Type text/html pair. -/
theorem c8_response_new (code : String) (hs : Option (List (String × String)))
    (b : Option String) :
    (HttpResponse.new code hs b).status_text =
      (if code = "200" then "OK"
       else if code = "400" then "Bad Request"
       else if code = "404" then "Not Found"
       else if code = "500" then "Internal Server Error"
       else "Not Found") ∧
      (HttpResponse.new code none b).headers = some [("Content-Type", "text/html")] := by
  constructor
  · by_cases h : code = "200"
    · subst h
      simp [HttpResponse.new, HttpResponse.default]
    · simp [HttpResponse.new, HttpResponse.default, h]
  · by_cases h : code = "200"
    · subst h
      simp [HttpResponse.new, HttpResponse.default]
    · simp [HttpResponse.new, HttpResponse.default, h]

/-- Claim C9: serializing an HttpResponse whose header map is present
produces exactly version, space, status_code, space, status_text, CRLF,
the rendered headers, Content-Length with the byte length of the body
(zero when absent), CRLF CRLF, then the body; in particular the two
quoted responses serialize byte-exactly. -/
theorem c9_response_serialization :
    (∀ (v sc st : String) (hs : List (String × String)) (b : Option String),
      httpResponseToString
          { version := v, status_code := sc, status_text := st,
            headers := some hs, body := b } =
        some (v ++ " " ++ sc ++ " " ++ st ++ "\r\n" ++ headersString hs ++
          "Content-Length: " ++
          toString (match b with | some s => s.utf8ByteSize | none => 0) ++
          "\r\n\r\n" ++ (match b with | some s => s | none => ""))) ∧
      httpResponseToString
          { version := "HTTP/1.1", status_code := "404", status_text := "Not Found",
            headers := some [("Content-Type", "text/html")],
            body := some "Item was shipped on 21st Dec 2020" } =
        some "HTTP/1.1 404 Not Found\r\nContent-Type:text/html\r\nContent-Length: 33\r\n\r\nItem was shipped on 21st Dec 2020" ∧
      httpResponseToString
          { version := "HTTP/1.1", status_code := "404", status_text := "Not Found",
            headers := some [("Content-Type", "text/html")], body := none } =
        some "HTTP/1.1 404 Not Found\r\nContent-Type:text/html\r\nContent-Length: 0\r\n\r\n" :=
  ⟨fun v sc st hs b => rfl, by decide, by decide⟩

theorem isEmpty_false_of_ne_nil {α : Type} {l : List α} (h : l ≠ []) :
    l.isEmpty = false := by
  cases l with
  | nil => exact absurd rfl h
  | cons a t => rfl

/-- Claim C6, counterexample: for the path /about with an existing
extension-less file named about, the handler does not answer 200 with
Content-Type text/html; it panics on extension().unwrap() (modelled by
none). -/
theorem c6_counterexample :
    StaticPageHandler.handle (fun n => if n = "about" then some "hello" else none)
        { method := .GET, version := .V1_1, resource := .Path "/about",
          headers := [], msg_body := "" } = none := by
  decide

/-- Claim C6, amended: for a request whose first path segment is
neither empty nor health, when the named file exists AND its name has
an extension, the handler returns 200 with Content-Type chosen by the
extension (css gives text/css, js gives text/javascript, anything else
gives text/html); when the file exists but the name has NO extension
the handler fails (extension().unwrap() panics); when the file is
absent it returns 404 with the 404.html contents as body (empty when
that is also absent). -/
theorem c6_static_handler (loadFile : String → Option String) (m : Method)
    (v : Version) (hs : List (String × String)) (b : String) (p seg : String)
    (hseg : (splitOnChar '/' p.data)[1]? = some seg.data)
    (h1 : seg ≠ "") (h2 : seg ≠ "health") :
    (∀ contents ext, loadFile seg = some contents → rustExtension seg = some ext →
        StaticPageHandler.handle loadFile
            { method := m, version := v, resource := .Path p,
              headers := hs, msg_body := b } =
          some { version := "HTTP/1.1", status_code := "200", status_text := "OK",
                 headers := some [("Content-Type",
                   if ext = "css" then "text/css"
                   else if ext = "js" then "text/javascript"
                   else "text/html")],
                 body := some contents }) ∧
      (∀ contents, loadFile seg = some contents → rustExtension seg = none →
        StaticPageHandler.handle loadFile
            { method := m, version := v, resource := .Path p,
              headers := hs, msg_body := b } = none) ∧
      (loadFile seg = none →
        StaticPageHandler.handle loadFile
            { method := m, version := v, resource := .Path p,
              headers := hs, msg_body := b } =
          some { version := "HTTP/1.1", status_code := "404",
                 status_text := "Not Found",
                 headers := some [("Content-Type", "text/html")],
                 body := loadFile "404.html" }) := by
  refine ⟨?_, ?_, ?_⟩
  · intro contents ext hc hx
    simp only [StaticPageHandler.handle, hseg, mk_data, h1, h2, hc, hx,
      if_neg h1, if_neg h2]
    simp [HttpResponse.new, HttpResponse.default]
  · intro contents hc hx
    simp only [StaticPageHandler.handle, hseg, mk_data, hc, hx,
      if_neg h1, if_neg h2]
  · intro hc
    simp only [StaticPageHandler.handle, hseg, mk_data, hc,
      if_neg h1, if_neg h2]
    simp [HttpResponse.new, HttpResponse.default]

/-- Claim C6, witness: the amended handler behavior at the path
/style.css with an oracle that has that one css file. -/
theorem c6_static_handler_witness :
    StaticPageHandler.handle (fun n => if n = "style.css" then some "bodycss" else none)
        { method := .GET, version := .V1_1, resource := .Path "/style.css",
          headers := [], msg_body := "" } =
      some { version := "HTTP/1.1", status_code := "200", status_text := "OK",
             headers := some [("Content-Type", "text/css")], body := some "bodycss" } := by
  have h := (c6_static_handler (fun n => if n = "style.css" then some "bodycss" else none)
    .GET .V1_1 [] "" "/style.css" "style.css" (by decide) (by decide) (by decide)).1
    "bodycss" "css" (by decide) (by decide)
  simpa using h

/-- Claim C10: for every GET request whose resource path contains no
slash, Router::route reads index 1 of the slash-split path out of
bounds, so the GET dispatch fails (none) instead of selecting a
handler; and parsing any raw input none of whose lines contains the
substring HTTP leaves the resource as the empty path, the method
UNINITIALIZED and the version V1_1. -/
theorem c10_route_index_oob :
    (∀ (p : String) (v : Version) (hs : List (String × String)) (b : String),
        (∀ c ∈ p.data, (c == '/') = false) →
        Router.dispatch
            { method := .GET, version := v, resource := .Path p,
              headers := hs, msg_body := b } = none) ∧
      (∀ req : String,
        (∀ l ∈ rustLinesL req.data, containsSeq "HTTP".data l = false) →
        ∃ r, HttpRequest.fromString req = some r ∧ r.resource = Resource.Path "" ∧
          r.method = Method.UNINITIALIZED ∧ r.version = Version.V1_1) := by
  constructor
  · intro p v hs b hp
    unfold Router.dispatch
    simp only [splitOnChar]
    rw [splitOnP_eq_single _ _ hp]
    rfl
  · intro req hreq
    obtain ⟨r, h1, h2, h3, h4⟩ := parseLines_no_http (rustLinesL req.data) initialRequest hreq
    exact ⟨r, h1, h4.trans rfl, h2.trans rfl, h3.trans rfl⟩

/-- Claim C10, witness: the dispatch failure at the empty path and the
parser outcome on a raw input without any HTTP line. -/
theorem c10_route_index_oob_witness :
    Router.dispatch
        { method := .GET, version := .V1_1, resource := .Path "",
          headers := [], msg_body := "" } = none ∧
      ∃ r, HttpRequest.fromString "Hello World!\r\n" = some r ∧
        r.resource = Resource.Path "" ∧ r.method = Method.UNINITIALIZED ∧
        r.version = Version.V1_1 :=
  ⟨c10_route_index_oob.1 "" .V1_1 [] "" (by decide),
    c10_route_index_oob.2 "Hello World!\r\n" (by decide)⟩

/-- Claim C4, counterexample: the text POST /a HTTP/1.1 CRLF CRLF
GET /b HTTP/1.1 has the claimed overall shape (request line, zero
header lines, blank separator, body), yet its body line contains the
substring HTTP, is re-parsed as a request line, and overwrites the
method and path: the parse yields GET and /b, not the original POST
and /a. -/
theorem c4_counterexample :
    HttpRequest.fromString "POST /a HTTP/1.1\r\n\r\nGET /b HTTP/1.1" =
      some { method := .GET, version := .V1_1, resource := .Path "/b",
             headers := [], msg_body := "" } ∧
      methodToString Method.GET ≠ "POST" ∧
      Resource.Path "/b" ≠ Resource.Path "/a" := by
  decide

/-- Claim C4, amended: for every request text METHOD space PATH space
HTTP/1.1 CRLF rest, where METHOD is GET or POST, PATH is nonempty and
whitespace-free, and no line of rest (headers, blank separator, body)
contains the substring HTTP, parsing succeeds and re-deriving the
method, path and version tokens from the result recovers the originals
exactly. -/
theorem c4_roundtrip (M P rest : String)
    (hM : M = "GET" ∨ M = "POST")
    (hP0 : P.data ≠ [])
    (hPws : ∀ c ∈ P.data, isRustWhitespace c = false)
    (hrest : ∀ l ∈ rustLinesL rest.data, containsSeq "HTTP".data l = false) :
    ∃ r, HttpRequest.fromString (M ++ " " ++ P ++ " HTTP/1.1\r\n" ++ rest) = some r ∧
      methodToString r.method = M ∧ r.resource = Resource.Path P ∧
      versionToString r.version = "HTTP/1.1" := by
  have hMn : ∀ c ∈ M.data, (c == '\n') = false := by
    rcases hM with rfl | rfl <;> decide
  have hMws : ∀ c ∈ M.data, isRustWhitespace c = false := by
    rcases hM with rfl | rfl <;> decide
  have hMne : M.data ≠ [] := by
    rcases hM with rfl | rfl <;> decide
  have hMts : methodToString (Method.fromStr M) = M := by
    rcases hM with rfl | rfl <;> decide
  have hPn : ∀ c ∈ P.data, (c == '\n') = false := by
    intro c hc
    cases hcn : (c == '\n') with
    | false => rfl
    | true =>
      have hceq : c = '\n' := eq_of_beq hcn
      rw [hceq] at hc
      exact absurd (hPws '\n' hc) (by decide)
  have hdata : (M ++ " " ++ P ++ " HTTP/1.1\r\n" ++ rest).data
      = (reqLineChars M P ++ ['\r']) ++ '\n' :: rest.data := by
    have h0 : (M ++ " " ++ P ++ " HTTP/1.1\r\n" ++ rest).data
        = (((M.data ++ [' ']) ++ P.data) ++
            [' ', 'H', 'T', 'T', 'P', '/', '1', '.', '1', '\r', '\n']) ++ rest.data := rfl
    rw [h0]
    simp [reqLineChars, List.append_assoc]
  have memCases : ∀ c ∈ reqLineChars M P,
      c ∈ M.data ∨ c ∈ P.data ∨ c ∈ [' ', 'H', 'T', 'T', 'P', '/', '1', '.', '1'] := by
    intro c hc
    unfold reqLineChars at hc
    rcases List.mem_append.mp hc with h | h
    · exact Or.inl h
    · rcases List.mem_cons.mp h with h | h
      · exact Or.inr (Or.inr (by rw [h]; decide))
      · rcases List.mem_append.mp h with h | h
        · exact Or.inr (Or.inl h)
        · rcases List.mem_cons.mp h with h | h
          · exact Or.inr (Or.inr (by rw [h]; decide))
          · exact Or.inr (Or.inr (List.mem_cons_of_mem _ h))
  have hA : ∀ c ∈ reqLineChars M P, (c == '\n') = false := by
    intro c hc
    rcases memCases c hc with h | h | h
    · exact hMn c h
    · exact hPn c h
    · have hall : ∀ x ∈ [' ', 'H', 'T', 'T', 'P', '/', '1', '.', '1'], (x == '\n') = false := by
        decide
      exact hall c h
  have hsplit : splitWsL (reqLineChars M P)
      = [M.data, P.data, ['H', 'T', 'T', 'P', '/', '1', '.', '1']] := by
    unfold splitWsL reqLineChars
    rw [splitOnP_append _ _ _ _ hMws (by decide),
      splitOnP_append _ _ _ _ hPws (by decide),
      splitOnP_eq_single _ _ (by decide)]
    simp [List.filter_cons, isEmpty_false_of_ne_nil hMne, isEmpty_false_of_ne_nil hP0]
  have hctn : containsSeq "HTTP".data (reqLineChars M P) = true := by
    have hshape : reqLineChars M P
        = (M.data ++ ' ' :: P.data) ++ ' ' :: ['H', 'T', 'T', 'P', '/', '1', '.', '1'] := by
      unfold reqLineChars
      simp [List.append_assoc]
    rw [hshape]
    exact containsSeq_append_of_right _ _ _ (by decide)
  have hreqline : process_req_lineL (reqLineChars M P)
      = some (Method.fromStr M, Resource.Path P, Version.V1_1) := by
    unfold process_req_lineL
    rw [hsplit]
    rfl
  have hstep : parseLine initialRequest (reqLineChars M P)
      = some { method := Method.fromStr M, version := Version.V1_1,
               resource := Resource.Path P, headers := [], msg_body := "" } := by
    simp only [parseLine, hctn, hreqline, if_true]
    rfl
  obtain ⟨r, hr, hm, hv, hres⟩ := parseLines_no_http (rustLinesL rest.data)
    { method := Method.fromStr M, version := Version.V1_1,
      resource := Resource.Path P, headers := [], msg_body := "" } hrest
  refine ⟨r, ?_, ?_, ?_, ?_⟩
  · unfold HttpRequest.fromString
    rw [hdata, rustLinesL_crlf _ _ hA]
    simp only [parseLines, hstep]
    exact hr
  · rw [hm]
    exact hMts
  · exact hres
  · rw [hv]
    rfl

/-- Claim C4, witness: the amended round-trip at a concrete GET
request with one header line, the blank separator and a body. -/
theorem c4_roundtrip_witness :
    ∃ r, HttpRequest.fromString
        ("GET" ++ " " ++ "/greeting" ++ " HTTP/1.1\r\n" ++ "Host: localhost\r\n\r\nHello!") = some r ∧
      methodToString r.method = "GET" ∧ r.resource = Resource.Path "/greeting" ∧
      versionToString r.version = "HTTP/1.1" :=
  c4_roundtrip "GET" "/greeting" "Host: localhost\r\n\r\nHello!"
    (Or.inl rfl) (by decide) (by decide) (by decide)
